import Mathlib

/-!
Verification of the GeneratorExt crate: a safety and composition layer over
resumable computations (Rust generators).

The development shallowly embeds `src/gen.rs`, `src/iter.rs` and the
`yield_from!` macro of `src/lib.rs`.  Rust's `&mut self` methods become
state-passing functions returning the result together with the updated value.

The host primitive `std::ops::Generator` is external to the crate; it is
modelled as a finite schedule of pending yields followed by one return value,
together with a `dead` flag recording that the primitive has already reported
`Complete`.  Resuming a `dead` generator is the undefined-behaviour case of the
host primitive; the trace semantics below flags any such call.
-/

/-- Rust `std::ops::GeneratorState`: the outcome of one raw resume step. -/
inductive GeneratorState (Y R : Type) where
  | Yielded : Y → GeneratorState Y R
  | Complete : R → GeneratorState Y R
deriving DecidableEq, Repr

/-- Rust `State<Y, R>` from `src/gen.rs`: outcome of a wrapper step. -/
inductive State (Y R : Type) where
  | Yield : Y → State Y R
  | Return : R → State Y R
deriving DecidableEq, Repr

/-- Rust `impl<Y, R: Into<Y>> Into<Option<Y>> for State<Y, R>` from `src/gen.rs`
(lines 42-50).  The Rust `Into` conversion `R → Y` is passed explicitly. -/
def State.intoOption (conv : R → Y) : State Y R → Option Y
  | State.Yield value => some value
  | State.Return value => some (conv value)

/-- Model of the host resumable-computation primitive (`std::ops::Generator`):
`yields` is the schedule of pending intermediate values, `ret` the final value,
and `dead` records that the primitive has already reported `Complete` (after
which resuming again is undefined behaviour on the host side; here a dead
resume returns a junk `Complete` and the violation is tracked separately by
the trace semantics, `opForbidden`). -/
structure RawGen (Y R : Type) where
  yields : List Y
  ret : R
  dead : Bool
deriving DecidableEq, Repr

/-- One raw resume step of the host primitive.  A live generator pops its next
pending yield, or reports `Complete ret` and becomes dead. -/
def RawGen.resume : RawGen Y R → GeneratorState Y R × RawGen Y R
  | ⟨y :: ys, r, d⟩ => (GeneratorState.Yielded y, ⟨ys, r, d⟩)
  | ⟨[], r, _⟩ => (GeneratorState.Complete r, ⟨[], r, true⟩)

/-- The host capability `std::ops::Generator`, as a typeclass so that the
crate's combinators stay generic (mirrors the `G: Generator` bounds). -/
class Generator (σ : Type) (Y R : outParam Type) where
  resume : σ → GeneratorState Y R × σ

instance : Generator (RawGen Y R) Y R := ⟨RawGen.resume⟩

/-- Rust `Callable<G>` from `src/gen.rs` (line 80): an `Option` slot guarding the
generator. -/
structure Callable (σ : Type) where
  slot : Option σ
deriving DecidableEq, Repr

/-- Rust `Callable::new` (line 84). -/
def Callable.new (g : σ) : Callable σ :=
  ⟨some g⟩

/-- Rust `Callable::into_inner` (line 163): consumes the wrapper, returning the slot. -/
def Callable.into_inner (c : Callable σ) : Option σ :=
  c.slot

/-- Rust `Callable::take` (line 171): `self.0.take()` — returns the slot's content
and leaves the slot empty. -/
def Callable.take (c : Callable σ) : Option σ × Callable σ :=
  (c.slot, ⟨none⟩)

/-- Rust `Callable::as_mut` (line 177): exposes the slot's content for in-place
mutation (in the state-passing embedding, reading the slot). -/
def Callable.as_mut (c : Callable σ) : Option σ :=
  c.slot

/-- Rust `<Callable as Futerator>::resume` (lines 188-193): `None` on an empty
slot; otherwise one raw resume — a yield keeps the (updated) generator in the
slot and reports `State.Yield ()`, completion clears the slot via `take` and
reports `State.Return r`. -/
def Callable.resume [Generator σ Y R] (c : Callable σ) :
    Option (State Unit R) × Callable σ :=
  match c.slot with
  | none => (none, c)
  | some g =>
    match Generator.resume g with
    | (GeneratorState.Yielded _, g') => (some (State.Yield ()), ⟨some g'⟩)
    | (GeneratorState.Complete r, _) => (some (State.Return r), ⟨none⟩)

/-- Rust `<Callable as Senerator>::resume_with_yield` (lines 214-219): same
protocol as `resume` but the yielded payload is kept. -/
def Callable.resume_with_yield [Generator σ Y R] (c : Callable σ) :
    Option (State Y R) × Callable σ :=
  match c.slot with
  | none => (none, c)
  | some g =>
    match Generator.resume g with
    | (GeneratorState.Yielded y, g') => (some (State.Yield y), ⟨some g'⟩)
    | (GeneratorState.Complete r, _) => (some (State.Return r), ⟨none⟩)

/-- The `Senerator` trait (multi-value stepping).  The `impl Senerator for
&'a mut G` of `src/gen.rs` (lines 222-232) is pure delegation, which in the
state-passing embedding is the instance itself: stepping through a mutable
borrow is stepping the wrapper and keeping its updated state. -/
class Senerator (σ : Type) (Y R : outParam Type) where
  resume_with_yield : σ → Option (State Y R) × σ

instance [Generator σ Y R] : Senerator (Callable σ) Y R :=
  ⟨Callable.resume_with_yield⟩

/-- The state of the generator built by `Callable::chain` (lines 92-109):
first `yield_from!(generator)` drives A, then the transform is applied to A's
return value and `yield_from!(provided_gen)` drives B.  `phaseA` still holds
the unapplied transform; `phaseB` holds the constructed second generator. -/
inductive ChainGen (σ τ Y R : Type) where
  | phaseA : σ → (R → τ) → ChainGen σ τ Y R
  | phaseB : τ → ChainGen σ τ Y R

/-- One resume of the chained generator body.  While A is live its yields are
re-emitted.  In the step where A completes, the transform is applied to A's
return value, and the freshly built B is resumed immediately in that same
step (the Rust body falls through from one `yield_from!` to the next without
an intervening suspension point). -/
def ChainGen.resume [Generator σ Y R] [Generator τ Y R] :
    ChainGen σ τ Y R → GeneratorState Y R × ChainGen σ τ Y R
  | ChainGen.phaseA a g =>
    match Generator.resume a with
    | (GeneratorState.Yielded y, a') => (GeneratorState.Yielded y, ChainGen.phaseA a' g)
    | (GeneratorState.Complete r, _) =>
      match Generator.resume (g r) with
      | (GeneratorState.Yielded y, b') => (GeneratorState.Yielded y, ChainGen.phaseB b')
      | (GeneratorState.Complete r2, b') => (GeneratorState.Complete r2, ChainGen.phaseB b')
  | ChainGen.phaseB b =>
    match Generator.resume b with
    | (GeneratorState.Yielded y, b') => (GeneratorState.Yielded y, ChainGen.phaseB b')
    | (GeneratorState.Complete r2, b') => (GeneratorState.Complete r2, ChainGen.phaseB b')

instance [Generator σ Y R] [Generator τ Y R] : Generator (ChainGen σ τ Y R) Y R :=
  ⟨ChainGen.resume⟩

/-- Rust `Callable::chain` (lines 92-109): takes the generator out of the wrapper
(`None` if exhausted) and wraps the two-phase chained generator.  The
transform is stored unapplied in `phaseA`. -/
def Callable.chain [Generator σ Y R] [Generator τ Y R]
    (c : Callable σ) (g : R → τ) : Option (Callable (ChainGen σ τ Y R)) :=
  match c.into_inner with
  | none => none
  | some generator => some (Callable.new (ChainGen.phaseA generator g))

/-- Rust `Callable::move_into` (lines 114-124): hands the owned generator to the
builder; `None` if exhausted. -/
def Callable.move_into (c : Callable σ) (func : σ → τ) : Option (Callable τ) :=
  match c.into_inner with
  | none => none
  | some generator => some (Callable.new (func generator))

/-- Rust `Callable::make_new` (lines 129-141): hands the whole wrapper by value to
the builder if the slot is populated; `None` if exhausted. -/
def Callable.make_new (c : Callable σ) (func : Callable σ → τ) : Option (Callable τ) :=
  if c.slot.isSome then some (Callable.new (func c)) else none

/-- Rust `Callable::borrow_mut` (lines 146-158): hands the wrapper to the builder
by exclusive borrow if the slot is populated; `None` if exhausted.  In the
state-passing embedding the borrow is the wrapper value captured by the new
generator's state. -/
def Callable.borrow_mut (c : Callable σ) (func : Callable σ → τ) : Option (Callable τ) :=
  if c.slot.isSome then some (Callable.new (func c)) else none

/-- Rust `futures::Async` as used by the optional `ext_futures` boundary. -/
inductive Async (T : Type) where
  | Ready : T → Async T
  | Pending : Async T
deriving DecidableEq, Repr

/-- Rust `<Callable as Future>::poll` (lines 250-256): one `resume` step; a yield
maps to `Ok(Pending)`, completion to `Ok(Ready r)`, and an exhausted wrapper
to `Err(())`. -/
def Callable.poll [Generator σ Y R] (c : Callable σ) :
    Except Unit (Async R) × Callable σ :=
  match Callable.resume c with
  | (some (State.Yield _), c') => (Except.ok Async.Pending, c')
  | (some (State.Return r), c') => (Except.ok (Async.Ready r), c')
  | (none, c') => (Except.error (), c')

/-- Rust `<Callable as Stream>::poll_next` (lines 263-268): one `resume_with_yield`
step; a yield maps to `Ok(Ready(Some y))`, completion and exhaustion both to
`Ok(Ready None)`. -/
def Callable.poll_next [Generator σ Y R] (c : Callable σ) :
    Except Unit (Async (Option Y)) × Callable σ :=
  match Callable.resume_with_yield c with
  | (some (State.Yield y), c') => (Except.ok (Async.Ready (some y)), c')
  | (some (State.Return _), c') => (Except.ok (Async.Ready none), c')
  | (none, c') => (Except.ok (Async.Ready none), c')

/-- Rust `YieldIterator<G>` from `src/iter.rs` (line 25). -/
structure YieldIterator (σ : Type) where
  gen : σ

/-- Rust `<YieldIterator as Iterator>::next` (lines 33-38): one
`resume_with_yield`; only the `Yield` variant produces an item, everything
else maps to `None` (the state update of the underlying step is kept in every
case). -/
def YieldIterator.next [Senerator σ Y R] (it : YieldIterator σ) :
    Option Y × YieldIterator σ :=
  match Senerator.resume_with_yield (Y := Y) (R := R) it.gen with
  | (some (State.Yield y), g') => (some y, ⟨g'⟩)
  | (some (State.Return _), g') => (none, ⟨g'⟩)
  | (none, g') => (none, ⟨g'⟩)

/-- Rust `ReturnIterator<G>` from `src/iter.rs` (line 68). -/
structure ReturnIterator (σ : Type) where
  gen : σ

/-- Rust `<ReturnIterator as Iterator>::next` (lines 77-82): one
`resume_with_yield`; a present step result is converted through
`State.intoOption`, absence maps to `None`. -/
def ReturnIterator.next [Senerator σ Y R] (conv : R → Y) (it : ReturnIterator σ) :
    Option Y × ReturnIterator σ :=
  match Senerator.resume_with_yield (Y := Y) (R := R) it.gen with
  | (some s, g') => (s.intoOption conv, ⟨g'⟩)
  | (none, g') => (none, ⟨g'⟩)

/-- Drive a `YieldIterator` like a `for` loop bounded by `fuel` pulls:
collect items until the first `None` (or until fuel runs out), returning the
items in order together with the iterator's final state. -/
def collectYield [Senerator σ Y R] :
    Nat → YieldIterator σ → List Y × YieldIterator σ
  | 0, it => ([], it)
  | fuel + 1, it =>
    match YieldIterator.next (Y := Y) (R := R) it with
    | (none, it') => ([], it')
    | (some y, it') =>
      (y :: (collectYield fuel it').1, (collectYield fuel it').2)

/-- Drive a `ReturnIterator` like `take(fuel)` driven to its end: collect
items until the first `None` or until `fuel` pulls have produced items. -/
def collectRet [Senerator σ Y R] (conv : R → Y) :
    Nat → ReturnIterator σ → List Y × ReturnIterator σ
  | 0, it => ([], it)
  | fuel + 1, it =>
    match ReturnIterator.next conv it with
    | (none, it') => ([], it')
    | (some y, it') =>
      (y :: (collectRet conv fuel it').1, (collectRet conv fuel it').2)

/-!
Trace semantics: sequences of operations performed on one wrapper through its
public interface.  `Op.take` also stands in for `into_inner` and drop-style
consumption, which affect the slot the same way.  The observation type
`OpResult` records what each operation reported (the yielded payload itself is
irrelevant to the trace-level claims, which are about empty vs `Return`).
-/

/-- An operation performed on a wrapper. -/
inductive Op where
  | resume
  | resumeWithYield
  | take
deriving DecidableEq, Repr

/-- Whether an operation is one of the two step operations. -/
def Op.isStep : Op → Bool
  | Op.resume => true
  | Op.resumeWithYield => true
  | Op.take => false

/-- What one operation on a wrapper reported. -/
inductive OpResult (σ R : Type) where
  | empty : OpResult σ R
  | yielded : OpResult σ R
  | completed : R → OpResult σ R
  | taken : Option σ → OpResult σ R
deriving DecidableEq, Repr

/-- Whether an operation reported the `Return`/`Completed` variant. -/
def OpResult.isCompleted : OpResult σ R → Bool
  | OpResult.completed _ => true
  | _ => false

/-- Execute one operation on a wrapper, via the embedded crate operations. -/
def runOp [Generator σ Y R] (c : Callable σ) : Op → Callable σ × OpResult σ R
  | Op.resume =>
    match Callable.resume c with
    | (none, c') => (c', OpResult.empty)
    | (some (State.Yield _), c') => (c', OpResult.yielded)
    | (some (State.Return r), c') => (c', OpResult.completed r)
  | Op.resumeWithYield =>
    match Callable.resume_with_yield c with
    | (none, c') => (c', OpResult.empty)
    | (some (State.Yield _), c') => (c', OpResult.yielded)
    | (some (State.Return r), c') => (c', OpResult.completed r)
  | Op.take =>
    match Callable.take c with
    | (g, c') => (c', OpResult.taken g)

/-- The wrapper state after a sequence of operations. -/
def runTrace [Generator σ Y R] (c : Callable σ) : List Op → Callable σ
  | [] => c
  | op :: ops => runTrace (runOp c op).1 ops

/-- The observations of a sequence of operations. -/
def runResults [Generator σ Y R] (c : Callable σ) : List Op → List (OpResult σ R)
  | [] => []
  | op :: ops => (runOp c op).2 :: runResults (runOp c op).1 ops

/-- A step operation invokes the host primitive's raw resume exactly when the
slot is populated (`Callable.resume` returns early through `as_mut()?`
otherwise); such a call is the forbidden undefined-behaviour call when the
generator held in the slot has already reported completion. -/
def opForbidden (c : Callable (RawGen Y R)) (op : Op) : Bool :=
  op.isStep &&
    match c.slot with
    | some g => g.dead
    | none => false

/-- Whether any operation of the trace performs the forbidden
resume-after-completion call on the host primitive. -/
def ubTrace (c : Callable (RawGen Y R)) : List Op → Bool
  | [] => false
  | op :: ops => opForbidden c op || ubTrace (runOp c op).1 ops

/-- The wrapper's safety invariant, as a decidable check: if the slot holds a
generator, that generator has not yet reported completion. -/
def liveB (c : Callable (RawGen Y R)) : Bool :=
  match c.slot with
  | some g => !g.dead
  | none => true

/-- Number of `Return`/`Completed` observations in a list of results. -/
def countCompleted (rs : List (OpResult σ R)) : Nat :=
  (rs.filter OpResult.isCompleted).length

/-- Whether a raw step outcome is the `Complete` variant. -/
def GeneratorState.isComplete : GeneratorState Y R → Bool
  | GeneratorState.Complete _ => true
  | GeneratorState.Yielded _ => false

/-- Whether resuming this chained-generator state applies the stored
transform: exactly when the state is still in phase A and the inner resume of
A reports completion (the Rust body then evaluates `g(ret)` to build B). -/
def ChainGen.appliesTransform [Generator σ Y R] [Generator τ Y R] :
    ChainGen σ τ Y R → Bool
  | ChainGen.phaseA a _ => (Generator.resume (Y := Y) a).1.isComplete
  | ChainGen.phaseB _ => false

/-- The state of the chained generator after one resume. -/
def chainStep [Generator σ Y R] [Generator τ Y R] (s : ChainGen σ τ Y R) :
    ChainGen σ τ Y R :=
  (ChainGen.resume s).2

/-- How many of the next `n` resume steps of the chained generator apply the
stored transform. -/
def countTransforms [Generator σ Y R] [Generator τ Y R] (s : ChainGen σ τ Y R) :
    Nat → Nat
  | 0 => 0
  | n + 1 => (if s.appliesTransform then 1 else 0) + countTransforms (chainStep s) n

/-- Whether the chained generator has already entered its second phase. -/
def ChainGen.isPhaseB : ChainGen σ τ Y R → Bool
  | ChainGen.phaseA _ _ => false
  | ChainGen.phaseB _ => true

/-- One pull of the yield-only iterator, keeping only the new state. -/
def stepYield [Senerator σ Y R] (it : YieldIterator σ) : YieldIterator σ :=
  (YieldIterator.next (Y := Y) (R := R) it).2

/-- One pull of the yield-plus-final iterator, keeping only the new state. -/
def stepRet [Senerator σ Y R] (conv : R → Y) (it : ReturnIterator σ) :
    ReturnIterator σ :=
  (ReturnIterator.next conv it).2

/-- Computation A of the chain scenario in `src/tests.rs` (`test_chain`):
yields `1, 2`, returns `3`. -/
def chainGenA : RawGen Nat Nat :=
  RawGen.mk [1, 2] 3 false

/-- First transform of `test_chain`: maps A's return value to a generator
yielding `input * 2`, returning `input`. -/
def chainTransform1 (input : Nat) : RawGen Nat Nat :=
  RawGen.mk [input * 2] input false

/-- Second transform of `test_chain`: maps the previous return value to a
generator yielding `input * 10`, returning `input * 10 - 1`. -/
def chainTransform2 (input : Nat) : RawGen Nat Nat :=
  RawGen.mk [input * 10] (input * 10 - 1) false

/-! Basic lemmas about the trace semantics. -/

lemma runOp_slot_none [Generator σ Y R] (op : Op) :
    (runOp (⟨none⟩ : Callable σ) op).1 = ⟨none⟩ := by
  cases op <;> rfl

lemma runOp_slot_none_step [Generator σ Y R] (op : Op) (h : op.isStep = true) :
    (runOp (⟨none⟩ : Callable σ) op).2 = OpResult.empty := by
  cases op <;> first | rfl | exact absurd h (by decide)

lemma runTrace_slot_none [Generator σ Y R] (ops : List Op) :
    runTrace (⟨none⟩ : Callable σ) ops = ⟨none⟩ := by
  induction ops with
  | nil => rfl
  | cons op ops ih => rw [runTrace, runOp_slot_none]; exact ih

lemma slot_none_of_eq_none {c : Callable σ} (h : c.slot = none) : c = ⟨none⟩ := by
  cases c; cases h; rfl

lemma runOp_completed_slot [Generator σ Y R] (c : Callable σ) (op : Op) (r : R)
    (h : (runOp c op).2 = OpResult.completed r) : (runOp c op).1 = ⟨none⟩ := by
  obtain ⟨slot⟩ := c
  cases op <;> cases slot <;>
    simp only [runOp, Callable.resume, Callable.resume_with_yield, Callable.take] at h ⊢
  case resume.some g =>
    rcases hg : Generator.resume (Y := Y) g with ⟨gs, g'⟩
    cases gs <;> simp [hg] at h ⊢
  case resumeWithYield.some g =>
    rcases hg : Generator.resume (Y := Y) g with ⟨gs, g'⟩
    cases gs <;> simp [hg] at h ⊢

lemma liveB_runOp (c : Callable (RawGen Y R)) (op : Op)
    (h : liveB c = true) : liveB (runOp c op).1 = true := by
  obtain ⟨slot⟩ := c
  cases slot with
  | none => rw [runOp_slot_none]; rfl
  | some g =>
    obtain ⟨ys, r, d⟩ := g
    simp only [liveB, Bool.not_eq_true'] at h
    subst h
    cases op <;> cases ys <;> rfl

lemma opForbidden_of_liveB (c : Callable (RawGen Y R)) (op : Op)
    (h : liveB c = true) : opForbidden c op = false := by
  obtain ⟨slot⟩ := c
  cases slot with
  | none => cases op <;> rfl
  | some g =>
    simp only [liveB, Bool.not_eq_true'] at h
    simp [opForbidden, h]

lemma liveB_runTrace (c : Callable (RawGen Y R)) (ops : List Op)
    (h : liveB c = true) : liveB (runTrace c ops) = true := by
  induction ops generalizing c with
  | nil => exact h
  | cons op ops ih => exact ih _ (liveB_runOp c op h)

lemma ubTrace_of_liveB (c : Callable (RawGen Y R)) (ops : List Op)
    (h : liveB c = true) : ubTrace c ops = false := by
  induction ops generalizing c with
  | nil => rfl
  | cons op ops ih =>
    rw [ubTrace, opForbidden_of_liveB c op h, ih _ (liveB_runOp c op h)]
    rfl

/-- C1: through the wrapper's interface, the host primitive's unchecked
resume is never invoked on a generator that has already reported completion:
every operation trace on a freshly wrapped live generator is free of the
forbidden call, and the wrapper's slot-invariant (a held generator is never a
completed one) holds after every trace. -/
theorem callable_never_resumes_after_completion (ys : List Y) (r : R) (ops : List Op) :
    ubTrace (Callable.new (RawGen.mk ys r false)) ops = false ∧
    liveB (runTrace (Callable.new (RawGen.mk ys r false)) ops) = true :=
  ⟨ubTrace_of_liveB _ ops rfl, liveB_runTrace _ ops rfl⟩

/-- C2: once a step operation has reported the `Return` variant, every later
step operation on the same wrapper (of either flavour, with arbitrary other
operations in between) reports `None`. -/
theorem exhaustion_monotone [Generator σ Y R] (c : Callable σ)
    (op₁ : Op) (ops : List Op) (op₂ : Op) (r : R)
    (h₁ : (runOp c op₁).2 = OpResult.completed r)
    (h₂ : op₂.isStep = true) :
    (runOp (runTrace (runOp c op₁).1 ops) op₂).2 = OpResult.empty := by
  rw [runOp_completed_slot c op₁ r h₁, runTrace_slot_none]
  exact runOp_slot_none_step op₂ h₂

/-- C2 witness: a wrapper whose generator returns `7` immediately reports
`Return 7` on the first `resume`, after which a later `resume` (with a
`resume_with_yield` in between) reports `None`. -/
theorem exhaustion_monotone_witness :
    (runOp (runTrace (runOp (Callable.new (RawGen.mk ([] : List Nat) 7 false))
        Op.resume).1 [Op.resumeWithYield]) Op.resume).2
      = OpResult.empty :=
  exhaustion_monotone (Callable.new (RawGen.mk ([] : List Nat) 7 false))
    Op.resume [Op.resumeWithYield] Op.resume 7 rfl rfl

/-- C3: the step operation follows the three-case protocol exactly: `None` on
an empty slot (state unchanged); on a suspension, `Some (Yield y)` with the
slot still populated (by the advanced generator); on completion,
`Some (Return r)` with the slot cleared in that same step. -/
theorem resume_with_yield_protocol [Generator σ Y R] (c : Callable σ) :
    (c.slot = none → Callable.resume_with_yield c = (none, c)) ∧
    (∀ g y g', c.slot = some g →
      Generator.resume g = (GeneratorState.Yielded y, g') →
      Callable.resume_with_yield c = (some (State.Yield y), Callable.new g')) ∧
    (∀ g r g', c.slot = some g →
      Generator.resume g = (GeneratorState.Complete r, g') →
      Callable.resume_with_yield c = (some (State.Return r), ⟨none⟩)) := by
  obtain ⟨slot⟩ := c
  refine ⟨?_, ?_, ?_⟩
  · rintro rfl; rfl
  · rintro g y g' h hg
    cases h
    simp [Callable.resume_with_yield, hg, Callable.new]
  · rintro g r g' h hg
    cases h
    simp [Callable.resume_with_yield, hg]

/-- C3 witness: the three cases of the protocol at concrete wrappers — an
empty slot reports `None`; a generator about to yield `4` reports
`Some (Yield 4)` and stays in the slot; a generator about to return `8`
reports `Some (Return 8)` and the slot is cleared. -/
theorem resume_with_yield_protocol_witness :
    Callable.resume_with_yield (⟨none⟩ : Callable (RawGen Nat Nat)) =
      (none, (⟨none⟩ : Callable (RawGen Nat Nat))) ∧
    Callable.resume_with_yield (Callable.new (RawGen.mk [4] 0 false)) =
      (some (State.Yield 4), Callable.new (RawGen.mk ([] : List Nat) 0 false)) ∧
    Callable.resume_with_yield (Callable.new (RawGen.mk ([] : List Nat) 8 false)) =
      (some (State.Return 8), ⟨none⟩) :=
  ⟨(resume_with_yield_protocol ⟨none⟩).1 rfl,
   (resume_with_yield_protocol _).2.1 (RawGen.mk [4] 0 false) 4
     (RawGen.mk [] 0 false) rfl rfl,
   (resume_with_yield_protocol _).2.2 (RawGen.mk [] 8 false) 8
     (RawGen.mk [] 8 true) rfl rfl⟩

/-! Lemmas about the sequence adapters over a wrapped host generator. -/

lemma collectYield_succ_of_next [Senerator σ Y R] (fuel : Nat)
    (it it' : YieldIterator σ) (y : Y)
    (h : YieldIterator.next (Y := Y) (R := R) it = (some y, it')) :
    collectYield (fuel + 1) it =
      (y :: (collectYield fuel it').1, (collectYield (Y := Y) (R := R) fuel it').2) := by
  rw [collectYield, h]

lemma collectRet_succ_of_next [Senerator σ Y R] (conv : R → Y) (fuel : Nat)
    (it it' : ReturnIterator σ) (y : Y)
    (h : ReturnIterator.next conv it = (some y, it')) :
    collectRet conv (fuel + 1) it =
      (y :: (collectRet conv fuel it').1, (collectRet conv fuel it').2) := by
  rw [collectRet, h]

lemma yieldIter_next_cons (v : Y) (vs : List Y) (f : R) (d : Bool) :
    YieldIterator.next (YieldIterator.mk (Callable.new (RawGen.mk (v :: vs) f d))) =
      (some v, YieldIterator.mk (Callable.new (RawGen.mk vs f d))) := rfl

lemma retIter_next_cons (conv : R → Y) (v : Y) (vs : List Y) (f : R) (d : Bool) :
    ReturnIterator.next conv (ReturnIterator.mk (Callable.new (RawGen.mk (v :: vs) f d))) =
      (some v, ReturnIterator.mk (Callable.new (RawGen.mk vs f d))) := rfl

lemma retIter_next_final (conv : R → Y) (f : R) :
    ReturnIterator.next conv
        (ReturnIterator.mk (Callable.new (RawGen.mk ([] : List Y) f false))) =
      (some (conv f), ReturnIterator.mk (⟨none⟩ : Callable (RawGen Y R))) := rfl

lemma collectYield_run (vs : List Y) (f : R) :
    collectYield vs.length (YieldIterator.mk (Callable.new (RawGen.mk vs f false))) =
      (vs, YieldIterator.mk (Callable.new (RawGen.mk ([] : List Y) f false))) := by
  induction vs with
  | nil => rfl
  | cons v vs ih =>
    show collectYield (vs.length + 1) _ = _
    rw [collectYield_succ_of_next vs.length _
          (YieldIterator.mk (Callable.new (RawGen.mk vs f false))) v
          (yieldIter_next_cons v vs f false), ih]

lemma collectRet_full (conv : R → Y) (vs : List Y) (f : R) :
    collectRet conv (vs.length + 1)
        (ReturnIterator.mk (Callable.new (RawGen.mk vs f false))) =
      (vs ++ [conv f], ReturnIterator.mk (⟨none⟩ : Callable (RawGen Y R))) := by
  induction vs with
  | nil =>
    show collectRet conv (0 + 1) _ = _
    rw [collectRet_succ_of_next conv 0 _ _ (conv f) (retIter_next_final conv f)]
    rfl
  | cons v vs ih =>
    show collectRet conv (vs.length + 1 + 1) _ = _
    rw [collectRet_succ_of_next conv (vs.length + 1) _
          (ReturnIterator.mk (Callable.new (RawGen.mk vs f false))) v
          (retIter_next_cons conv v vs f false), ih]
    rfl

lemma collectRet_bounded (conv : R → Y) (k : Nat) (vs : List Y) (f : R)
    (h : k ≤ vs.length) :
    collectRet conv k (ReturnIterator.mk (Callable.new (RawGen.mk vs f false))) =
      (vs.take k, ReturnIterator.mk (Callable.new (RawGen.mk (vs.drop k) f false))) := by
  induction k generalizing vs with
  | zero => rfl
  | succ k ih =>
    cases vs with
    | nil => simp at h
    | cons v vs =>
      have h' : k ≤ vs.length := by simpa using h
      rw [collectRet_succ_of_next conv k _
            (ReturnIterator.mk (Callable.new (RawGen.mk vs f false))) v
            (retIter_next_cons conv v vs f false), ih vs h']
      rfl

lemma stepYield_iterate_none (k : Nat) :
    stepYield^[k] (YieldIterator.mk (⟨none⟩ : Callable (RawGen Y R))) =
      YieldIterator.mk (⟨none⟩ : Callable (RawGen Y R)) := by
  induction k with
  | zero => rfl
  | succ k ih => rw [Function.iterate_succ_apply]; exact ih

lemma stepRet_iterate_none (conv : R → Y) (k : Nat) :
    (stepRet conv)^[k] (ReturnIterator.mk (⟨none⟩ : Callable (RawGen Y R))) =
      ReturnIterator.mk (⟨none⟩ : Callable (RawGen Y R)) := by
  induction k with
  | zero => rfl
  | succ k ih => rw [Function.iterate_succ_apply]; exact ih

/-- C4: for a computation yielding `vs` then returning `f`, the yield-only
iterator produces exactly `vs` in order and afterwards only `None` forever
(the final value is discarded), while the yield-plus-final iterator produces
exactly `vs ++ [conv f]` and afterwards only `None` forever. -/
theorem iterator_sequences (vs : List Y) (f : R) (conv : R → Y) :
    collectYield vs.length (YieldIterator.mk (Callable.new (RawGen.mk vs f false))) =
      (vs, YieldIterator.mk (Callable.new (RawGen.mk ([] : List Y) f false))) ∧
    (∀ k : Nat, (YieldIterator.next (stepYield^[k]
        (YieldIterator.mk (Callable.new (RawGen.mk ([] : List Y) f false))))).1 =
      (none : Option Y)) ∧
    collectRet conv (vs.length + 1)
        (ReturnIterator.mk (Callable.new (RawGen.mk vs f false))) =
      (vs ++ [conv f], ReturnIterator.mk (⟨none⟩ : Callable (RawGen Y R))) ∧
    (∀ k : Nat, (ReturnIterator.next conv ((stepRet conv)^[k]
        (ReturnIterator.mk (⟨none⟩ : Callable (RawGen Y R))))).1 = none) := by
  refine ⟨collectYield_run vs f, ?_, collectRet_full conv vs f, ?_⟩
  · intro k
    cases k with
    | zero => rfl
    | succ k =>
      rw [Function.iterate_succ_apply]
      have hstep : stepYield (YieldIterator.mk (Callable.new (RawGen.mk ([] : List Y) f false))) =
          YieldIterator.mk (⟨none⟩ : Callable (RawGen Y R)) := rfl
      rw [hstep, stepYield_iterate_none]
      rfl
  · intro k
    rw [stepRet_iterate_none]
    rfl

/-- C7: partial consumption does not exhaust the wrapper: pulling only the
first `k` items through a bounded view of the yield-plus-final sequence over a
borrowed wrapper (where the computation still has more than `k` suspensions)
produces `vs.take k` and leaves the wrapper holding the computation with
exactly the remaining suspensions; a fresh yield-plus-final view over that
same wrapper then produces the remaining items followed by the converted
final value, in order, without repetition or loss. -/
theorem bounded_consumption_resumable (vs : List Y) (f : R) (conv : R → Y)
    (k : Nat) (h : k < vs.length) :
    collectRet conv k (ReturnIterator.mk (Callable.new (RawGen.mk vs f false))) =
      (vs.take k,
        ReturnIterator.mk (Callable.new (RawGen.mk (vs.drop k) f false))) ∧
    collectRet conv ((vs.drop k).length + 1)
        (ReturnIterator.mk (Callable.new (RawGen.mk (vs.drop k) f false))) =
      (vs.drop k ++ [conv f], ReturnIterator.mk (⟨none⟩ : Callable (RawGen Y R))) :=
  ⟨collectRet_bounded conv k vs f (Nat.le_of_lt h),
   collectRet_full conv (vs.drop k) f⟩

/-- C7 witness: the spec scenario — a computation yielding `0,1,2,3,4` then
returning `99`, pulled through a view bounded to 4 items, produces `0,1,2,3`;
a fresh yield-plus-final view over the same wrapper then produces `4`
followed by `99` and then stops. -/
theorem bounded_consumption_resumable_witness :
    collectRet (id : Nat → Nat) 4
        (ReturnIterator.mk (Callable.new (RawGen.mk [0, 1, 2, 3, 4] 99 false))) =
      ([0, 1, 2, 3], ReturnIterator.mk (Callable.new (RawGen.mk [4] 99 false))) ∧
    collectRet (id : Nat → Nat) 2
        (ReturnIterator.mk (Callable.new (RawGen.mk [4] 99 false))) =
      ([4, 99], ReturnIterator.mk (⟨none⟩ : Callable (RawGen Nat Nat))) :=
  bounded_consumption_resumable [0, 1, 2, 3, 4] 99 id 4 (by decide)

/-- C10: the conversion from a step result into an optional yield value is
total onto `some`: a suspension converts to its value, a completion to the
converted final value, and the conversion never produces `none` — so the
yield-plus-final iterator reports end-of-sequence exactly when the underlying
step operation itself reported `None` (an exhausted wrapper), never because
of the conversion. -/
theorem state_into_option_total [Senerator σ Y R] (conv : R → Y)
    (s : State Y R) (it : ReturnIterator σ) :
    (s.intoOption conv).isSome = true ∧
    (∀ y : Y, (State.Yield y : State Y R).intoOption conv = some y) ∧
    (∀ r : R, (State.Return r : State Y R).intoOption conv = some (conv r)) ∧
    ((ReturnIterator.next conv it).1 = none ↔
      (Senerator.resume_with_yield (Y := Y) (R := R) it.gen).1 = none) := by
  refine ⟨?_, fun y => rfl, fun r => rfl, ?_⟩
  · cases s <;> rfl
  · rw [ReturnIterator.next]
    rcases hr : Senerator.resume_with_yield (Y := Y) (R := R) it.gen with ⟨os, g'⟩
    cases os with
    | none => simp
    | some s' => cases s' <;> simp [State.intoOption]

/-! Lemmas about the chained generator's transform application. -/

lemma isPhaseB_chainStep [Generator σ Y R] [Generator τ Y R]
    (s : ChainGen σ τ Y R) (h : s.isPhaseB = true) :
    (chainStep s).isPhaseB = true := by
  cases s with
  | phaseA a g => simp [ChainGen.isPhaseB] at h
  | phaseB b =>
    rcases hb : Generator.resume (Y := Y) b with ⟨gs, b'⟩
    cases gs <;> simp [chainStep, ChainGen.resume, hb, ChainGen.isPhaseB]

lemma appliesTransform_of_phaseB [Generator σ Y R] [Generator τ Y R]
    (s : ChainGen σ τ Y R) (h : s.isPhaseB = true) :
    s.appliesTransform = false := by
  cases s with
  | phaseA a g => simp [ChainGen.isPhaseB] at h
  | phaseB b => rfl

lemma countTransforms_of_phaseB [Generator σ Y R] [Generator τ Y R]
    (n : Nat) (s : ChainGen σ τ Y R) (h : s.isPhaseB = true) :
    countTransforms s n = 0 := by
  induction n generalizing s with
  | zero => rfl
  | succ n ih =>
    rw [countTransforms, appliesTransform_of_phaseB s h,
      ih (chainStep s) (isPhaseB_chainStep s h)]
    rfl

lemma isPhaseB_chainStep_of_appliesTransform [Generator σ Y R] [Generator τ Y R]
    (s : ChainGen σ τ Y R) (h : s.appliesTransform = true) :
    (chainStep s).isPhaseB = true := by
  cases s with
  | phaseB b => simp [ChainGen.appliesTransform] at h
  | phaseA a g =>
    rcases ha : Generator.resume (Y := Y) a with ⟨gs, a'⟩
    cases gs with
    | Yielded y =>
      rw [ChainGen.appliesTransform, ha] at h
      simp [GeneratorState.isComplete] at h
    | Complete r =>
      rcases hb : Generator.resume (Y := Y) (g r) with ⟨gs2, b'⟩
      cases gs2 <;> simp [chainStep, ChainGen.resume, ha, hb, ChainGen.isPhaseB]

lemma countTransforms_le_one [Generator σ Y R] [Generator τ Y R]
    (n : Nat) (s : ChainGen σ τ Y R) : countTransforms s n ≤ 1 := by
  induction n generalizing s with
  | zero => exact Nat.zero_le 1
  | succ n ih =>
    rw [countTransforms]
    by_cases h : s.appliesTransform = true
    · rw [h, if_pos rfl,
        countTransforms_of_phaseB n (chainStep s) (isPhaseB_chainStep_of_appliesTransform s h)]
    · rw [if_neg h, Nat.zero_add]
      exact ih (chainStep s)

/-- C6: the transform given to `chain` is stored unapplied at `chain()` call
time (the new wrapper's slot holds phase A with the transform as passed); a
resume step of the chained generator applies it exactly when computation A's
resume reports completion (never while A is still suspending, never in phase
B); and over any number of steps of the chained wrapper's life it is applied
at most once — in particular never, if A is never driven to completion. -/
theorem chain_transform_lazy_once [Generator σ Y R] [Generator τ Y R]
    (c : Callable σ) (g : R → τ) (a : σ) (b : τ) (n : Nat)
    (s : ChainGen σ τ Y R) :
    Callable.chain c g =
      (Callable.into_inner c).map (fun a0 => Callable.new (ChainGen.phaseA a0 g)) ∧
    ChainGen.appliesTransform (ChainGen.phaseA (Y := Y) a g) =
      (Generator.resume (Y := Y) a).1.isComplete ∧
    ChainGen.appliesTransform (ChainGen.phaseB (σ := σ) (Y := Y) (R := R) b) = false ∧
    countTransforms s n ≤ 1 := by
  refine ⟨?_, rfl, rfl, countTransforms_le_one n s⟩
  obtain ⟨slot⟩ := c
  cases slot <;> rfl

/-! Step lemmas for the yield-plus-final iterator over an arbitrary wrapped
generator, and resume lemmas for the chained generator. -/

lemma resume_with_yield_new_yield [Generator σ Y R] (g g' : σ) (y : Y)
    (h : Generator.resume g = (GeneratorState.Yielded y, g')) :
    Callable.resume_with_yield (Callable.new g) =
      (some (State.Yield y), (⟨some g'⟩ : Callable σ)) := by
  have h0 : Callable.resume_with_yield (Callable.new g) =
      match Generator.resume (Y := Y) g with
      | (GeneratorState.Yielded y2, g2) => (some (State.Yield y2), (⟨some g2⟩ : Callable σ))
      | (GeneratorState.Complete r, _) => (some (State.Return r), (⟨none⟩ : Callable σ)) := rfl
  rw [h0, h]

lemma resume_with_yield_new_complete [Generator σ Y R] (g g' : σ) (r : R)
    (h : Generator.resume g = (GeneratorState.Complete r, g')) :
    Callable.resume_with_yield (Callable.new g) =
      (some (State.Return r), (⟨none⟩ : Callable σ)) := by
  have h0 : Callable.resume_with_yield (Callable.new g) =
      match Generator.resume (Y := Y) g with
      | (GeneratorState.Yielded y2, g2) => (some (State.Yield y2), (⟨some g2⟩ : Callable σ))
      | (GeneratorState.Complete r2, _) => (some (State.Return r2), (⟨none⟩ : Callable σ)) := rfl
  rw [h0, h]

lemma retIter_next_some [Generator σ Y R] (conv : R → Y) (c c' : Callable σ)
    (s : State Y R) (h : Callable.resume_with_yield c = (some s, c')) :
    ReturnIterator.next conv (ReturnIterator.mk c) =
      (s.intoOption conv, ReturnIterator.mk c') := by
  unfold ReturnIterator.next
  rw [show Senerator.resume_with_yield (Y := Y) (R := R) (ReturnIterator.mk c).gen =
    Callable.resume_with_yield c from rfl, h]

lemma retIter_next_new_yield [Generator σ Y R] (conv : R → Y) (g g' : σ) (y : Y)
    (h : Generator.resume g = (GeneratorState.Yielded y, g')) :
    ReturnIterator.next conv (ReturnIterator.mk (Callable.new g)) =
      (some y, ReturnIterator.mk (Callable.new g')) := by
  rw [retIter_next_some conv (Callable.new g) ⟨some g'⟩ (State.Yield y)
    (resume_with_yield_new_yield g g' y h)]
  rfl

lemma retIter_next_new_complete [Generator σ Y R] (conv : R → Y) (g g' : σ) (r : R)
    (h : Generator.resume g = (GeneratorState.Complete r, g')) :
    ReturnIterator.next conv (ReturnIterator.mk (Callable.new g)) =
      (some (conv r), ReturnIterator.mk (⟨none⟩ : Callable σ)) := by
  rw [retIter_next_some conv (Callable.new g) ⟨none⟩ (State.Return r)
    (resume_with_yield_new_complete g g' r h)]
  rfl

lemma generator_chainGen [Generator σ Y R] [Generator τ Y R] (s : ChainGen σ τ Y R) :
    Generator.resume s = ChainGen.resume s := rfl

lemma chainA_resume_cons (v : Y) (vs : List Y) (r : R) (g : R → RawGen Y R) :
    Generator.resume
        (ChainGen.phaseA (σ := RawGen Y R) (Y := Y) (RawGen.mk (v :: vs) r false) g) =
      (GeneratorState.Yielded v, ChainGen.phaseA (RawGen.mk vs r false) g) := rfl

lemma chainA_step_completes_yieldB (r : R) (g : R → RawGen Y R)
    (b : Y) (bs : List Y) (bret : R)
    (hg : g r = RawGen.mk (b :: bs) bret false) :
    Generator.resume
        (ChainGen.phaseA (σ := RawGen Y R) (Y := Y) (RawGen.mk [] r false) g) =
      (GeneratorState.Yielded b, ChainGen.phaseB (RawGen.mk bs bret false)) := by
  rw [generator_chainGen]
  simp only [ChainGen.resume,
    show Generator.resume (RawGen.mk ([] : List Y) r false) =
      (GeneratorState.Complete r, RawGen.mk ([] : List Y) r true) from rfl]
  rw [hg]
  rfl

lemma chainA_step_completes_retB (r : R) (g : R → RawGen Y R) (bret : R)
    (hg : g r = RawGen.mk [] bret false) :
    Generator.resume
        (ChainGen.phaseA (σ := RawGen Y R) (Y := Y) (RawGen.mk [] r false) g) =
      (GeneratorState.Complete bret, ChainGen.phaseB (RawGen.mk ([] : List Y) bret true)) := by
  rw [generator_chainGen]
  simp only [ChainGen.resume,
    show Generator.resume (RawGen.mk ([] : List Y) r false) =
      (GeneratorState.Complete r, RawGen.mk ([] : List Y) r true) from rfl]
  rw [hg]
  rfl

lemma chainB_resume_cons (b : Y) (bs : List Y) (bret : R) :
    Generator.resume
        (ChainGen.phaseB (σ := RawGen Y R) (Y := Y) (R := R) (RawGen.mk (b :: bs) bret false)) =
      (GeneratorState.Yielded b, ChainGen.phaseB (RawGen.mk bs bret false)) := rfl

lemma chainB_resume_final (bret : R) :
    Generator.resume
        (ChainGen.phaseB (σ := RawGen Y R) (Y := Y) (R := R) (RawGen.mk ([] : List Y) bret false)) =
      (GeneratorState.Complete bret, ChainGen.phaseB (RawGen.mk ([] : List Y) bret true)) := rfl

lemma collectRet_chainB (conv : R → Y) (bvs : List Y) (bret : R) :
    collectRet conv (bvs.length + 1)
        (ReturnIterator.mk (Callable.new
          (ChainGen.phaseB (σ := RawGen Y R) (Y := Y) (R := R) (RawGen.mk bvs bret false)))) =
      (bvs ++ [conv bret],
        ReturnIterator.mk (⟨none⟩ : Callable (ChainGen (RawGen Y R) (RawGen Y R) Y R))) := by
  induction bvs with
  | nil =>
    show collectRet conv (0 + 1) _ = _
    rw [collectRet_succ_of_next conv 0 _ _ (conv bret)
      (retIter_next_new_complete conv _ _ bret (chainB_resume_final bret))]
    rfl
  | cons b bs ih =>
    show collectRet conv (bs.length + 1 + 1) _ = _
    rw [collectRet_succ_of_next conv (bs.length + 1) _ _ b
      (retIter_next_new_yield conv _ _ b (chainB_resume_cons b bs bret)), ih]
    rfl

lemma collectRet_chainA (conv : R → Y) (vs : List Y) (r : R) (g : R → RawGen Y R)
    (bvs : List Y) (bret : R) (hg : g r = RawGen.mk bvs bret false) :
    collectRet conv (vs.length + bvs.length + 1)
        (ReturnIterator.mk (Callable.new
          (ChainGen.phaseA (σ := RawGen Y R) (Y := Y) (RawGen.mk vs r false) g))) =
      (vs ++ bvs ++ [conv bret],
        ReturnIterator.mk (⟨none⟩ : Callable (ChainGen (RawGen Y R) (RawGen Y R) Y R))) := by
  induction vs with
  | nil =>
    rw [show ([] : List Y).length + bvs.length + 1 = bvs.length + 1 by simp]
    cases bvs with
    | nil =>
      show collectRet conv (0 + 1) _ = _
      rw [collectRet_succ_of_next conv 0 _ _ (conv bret)
        (retIter_next_new_complete conv _ _ bret (chainA_step_completes_retB r g bret hg))]
      rfl
    | cons b bs =>
      show collectRet conv (bs.length + 1 + 1) _ = _
      rw [collectRet_succ_of_next conv (bs.length + 1) _ _ b
        (retIter_next_new_yield conv _ _ b (chainA_step_completes_yieldB r g b bs bret hg)),
        collectRet_chainB conv bs bret]
      rfl
  | cons v vs ih =>
    rw [show (v :: vs).length + bvs.length + 1 = (vs.length + bvs.length + 1) + 1 by
      simp [List.length_cons]; omega]
    rw [collectRet_succ_of_next conv (vs.length + bvs.length + 1) _ _ v
      (retIter_next_new_yield conv _ _ v (chainA_resume_cons v vs r g)), ih]
    rfl

/-- C5: a chained wrapper driven to exhaustion emits all of A's intermediate
values first, in order, then all of B's intermediate values in order, with no
interleaving, and its final value is B's final value; and concretely, the
doubly-chained pipeline of the test scenario (A yields `1,2` returns `3`;
transform 1 maps `3` to B yielding `6` returning `3`; transform 2 maps `3` to
C yielding `30` returning `29`) yields exactly `1,2,6,30,29` and then stops. -/
theorem chain_output_order (vs : List Y) (r : R) (g : R → RawGen Y R)
    (bvs : List Y) (bret : R) (conv : R → Y)
    (hg : g r = RawGen.mk bvs bret false) :
    (Callable.chain (Callable.new (RawGen.mk vs r false)) g =
      some (Callable.new (ChainGen.phaseA (RawGen.mk vs r false) g))) ∧
    collectRet conv (vs.length + bvs.length + 1)
        (ReturnIterator.mk (Callable.new
          (ChainGen.phaseA (σ := RawGen Y R) (Y := Y) (RawGen.mk vs r false) g))) =
      (vs ++ bvs ++ [conv bret],
        ReturnIterator.mk (⟨none⟩ : Callable (ChainGen (RawGen Y R) (RawGen Y R) Y R))) ∧
    ((Callable.chain (Callable.new chainGenA) chainTransform1).bind
        (fun c1 => Callable.chain c1 chainTransform2) =
      some (Callable.new
        (ChainGen.phaseA (ChainGen.phaseA chainGenA chainTransform1) chainTransform2))) ∧
    collectRet (id : Nat → Nat) 6
        (ReturnIterator.mk (Callable.new
          (ChainGen.phaseA (σ := ChainGen (RawGen Nat Nat) (RawGen Nat Nat) Nat Nat)
            (ChainGen.phaseA chainGenA chainTransform1) chainTransform2))) =
      ([1, 2, 6, 30, 29],
        ReturnIterator.mk (⟨none⟩ :
          Callable (ChainGen (ChainGen (RawGen Nat Nat) (RawGen Nat Nat) Nat Nat)
            (RawGen Nat Nat) Nat Nat))) :=
  ⟨rfl, collectRet_chainA conv vs r g bvs bret hg, rfl, rfl⟩

/-- C5 witness: the single chain of the scenario — A yields `1,2` returns
`3`, the transform maps `3` to a generator yielding `6` returning `3`; the
chained wrapper driven to exhaustion produces `1,2,6,3`. -/
theorem chain_output_order_witness :
    (Callable.chain (Callable.new (RawGen.mk [1, 2] 3 false)) chainTransform1 =
      some (Callable.new (ChainGen.phaseA (RawGen.mk [1, 2] 3 false) chainTransform1))) ∧
    collectRet (id : Nat → Nat) 4
        (ReturnIterator.mk (Callable.new
          (ChainGen.phaseA (σ := RawGen Nat Nat) (RawGen.mk [1, 2] 3 false) chainTransform1))) =
      ([1, 2, 6, 3],
        ReturnIterator.mk (⟨none⟩ :
          Callable (ChainGen (RawGen Nat Nat) (RawGen Nat Nat) Nat Nat))) ∧
    ((Callable.chain (Callable.new chainGenA) chainTransform1).bind
        (fun c1 => Callable.chain c1 chainTransform2) =
      some (Callable.new
        (ChainGen.phaseA (ChainGen.phaseA chainGenA chainTransform1) chainTransform2))) ∧
    collectRet (id : Nat → Nat) 6
        (ReturnIterator.mk (Callable.new
          (ChainGen.phaseA (σ := ChainGen (RawGen Nat Nat) (RawGen Nat Nat) Nat Nat)
            (ChainGen.phaseA chainGenA chainTransform1) chainTransform2))) =
      ([1, 2, 6, 30, 29],
        ReturnIterator.mk (⟨none⟩ :
          Callable (ChainGen (ChainGen (RawGen Nat Nat) (RawGen Nat Nat) Nat Nat)
            (RawGen Nat Nat) Nat Nat))) :=
  chain_output_order [1, 2] 3 chainTransform1 [6] 3 id rfl

/-! Counting lemmas for `Return` observations along a trace. -/

lemma countCompleted_cons_not (x : OpResult σ R) (rs : List (OpResult σ R))
    (h : x.isCompleted = false) :
    countCompleted (x :: rs) = countCompleted rs := by
  simp [countCompleted, List.filter_cons, h]

lemma countCompleted_cons_completed (r : R) (rs : List (OpResult σ R)) :
    countCompleted (OpResult.completed r :: rs) = countCompleted rs + 1 := by
  simp [countCompleted, List.filter_cons, OpResult.isCompleted]

lemma isCompleted_exists (x : OpResult σ R) (h : x.isCompleted = true) :
    ∃ r, x = OpResult.completed r := by
  cases x with
  | completed r => exact ⟨r, rfl⟩
  | empty => simp [OpResult.isCompleted] at h
  | yielded => simp [OpResult.isCompleted] at h
  | taken g => simp [OpResult.isCompleted] at h

lemma countCompleted_runResults_none [Generator σ Y R] (ops : List Op) :
    countCompleted (runResults (⟨none⟩ : Callable σ) ops) = 0 := by
  induction ops with
  | nil => rfl
  | cons op ops ih =>
    have hx : ((runOp (⟨none⟩ : Callable σ) op).2).isCompleted = false := by
      cases op <;> rfl
    rw [runResults, countCompleted_cons_not _ _ hx, runOp_slot_none, ih]

lemma countCompleted_le_one [Generator σ Y R] (ops : List Op) (c : Callable σ) :
    countCompleted (runResults c ops) ≤ 1 := by
  induction ops generalizing c with
  | nil => exact Nat.zero_le 1
  | cons op ops ih =>
    rw [runResults]
    cases hb : ((runOp c op).2).isCompleted with
    | false =>
      rw [countCompleted_cons_not _ _ hb]
      exact ih _
    | true =>
      obtain ⟨r, hr⟩ := isCompleted_exists _ hb
      rw [hr, countCompleted_cons_completed, runOp_completed_slot c op r hr,
        countCompleted_runResults_none]

lemma countCompleted_full_drive (vs : List Y) (f : R) :
    countCompleted (runResults (Callable.new (RawGen.mk vs f false))
      (List.replicate (vs.length + 1) Op.resumeWithYield)) = 1 := by
  induction vs with
  | nil => rfl
  | cons v vs ih =>
    have hstep : runOp (Callable.new (RawGen.mk (v :: vs) f false)) Op.resumeWithYield =
        (Callable.new (RawGen.mk vs f false), OpResult.yielded) := rfl
    show countCompleted (runResults (Callable.new (RawGen.mk (v :: vs) f false))
      (Op.resumeWithYield :: List.replicate (vs.length + 1) Op.resumeWithYield)) = 1
    rw [runResults, hstep]
    show countCompleted (OpResult.yielded :: runResults
      (Callable.new (RawGen.mk vs f false))
      (List.replicate (vs.length + 1) Op.resumeWithYield)) = 1
    rw [countCompleted_cons_not (OpResult.yielded : OpResult (RawGen Y R) R) _ rfl, ih]

lemma runOp_completed_iff [Generator σ Y R] (c : Callable σ) (op : Op) (r : R)
    (hop : op.isStep = true) :
    (runOp c op).2 = OpResult.completed r ↔
      ∃ g, c.slot = some g ∧ (Generator.resume g).1 = GeneratorState.Complete r := by
  obtain ⟨slot⟩ := c
  cases slot with
  | none =>
    cases op with
    | take => simp [Op.isStep] at hop
    | resume =>
      rw [show (runOp (⟨none⟩ : Callable σ) Op.resume).2 =
        (OpResult.empty : OpResult σ R) from rfl]
      simp
    | resumeWithYield =>
      rw [show (runOp (⟨none⟩ : Callable σ) Op.resumeWithYield).2 =
        (OpResult.empty : OpResult σ R) from rfl]
      simp
  | some g =>
    rcases hg : Generator.resume (Y := Y) g with ⟨gs, g'⟩
    cases op with
    | take => simp [Op.isStep] at hop
    | resume =>
      cases gs <;> simp [runOp, Callable.resume, hg]
    | resumeWithYield =>
      cases gs <;> simp [runOp, Callable.resume_with_yield, hg]

/-- C9: exactly one final value per wrapper: over any operation trace the
`Return`/`Completed` variant is observed at most once; a step operation
reports `Return r` precisely when the slot holds a generator whose resume
reports completion with `r`, and the slot is cleared in that same step; and a
fresh wrapper driven one step past its suspensions reports it exactly once. -/
theorem final_value_exactly_once [Generator σ Y R] (c : Callable σ)
    (vs : List Y) (f : R) :
    (∀ ops : List Op, countCompleted (runResults c ops) ≤ 1) ∧
    (∀ (op : Op) (r : R), (runOp c op).2 = OpResult.completed r →
      (runOp c op).1 = ⟨none⟩) ∧
    (∀ (op : Op) (r : R), op.isStep = true →
      ((runOp c op).2 = OpResult.completed r ↔
        ∃ g, c.slot = some g ∧ (Generator.resume g).1 = GeneratorState.Complete r)) ∧
    countCompleted (runResults (Callable.new (RawGen.mk vs f false))
      (List.replicate (vs.length + 1) Op.resumeWithYield)) = 1 :=
  ⟨fun ops => countCompleted_le_one ops c,
   fun op r h => runOp_completed_slot c op r h,
   fun op r hop => runOp_completed_iff c op r hop,
   countCompleted_full_drive vs f⟩

/-- C9 witness: a wrapper whose generator returns `3` at once has its slot
cleared by the step that reports `Return 3`, and a wrapper yielding `5` then
returning `3`, driven for two steps, reports `Return` exactly once. -/
theorem final_value_exactly_once_witness :
    (runOp (Callable.new (RawGen.mk ([] : List Nat) 3 false)) Op.resumeWithYield).1 =
      (⟨none⟩ : Callable (RawGen Nat Nat)) ∧
    countCompleted (runResults (Callable.new (RawGen.mk ([5] : List Nat) 3 false))
      (List.replicate 2 Op.resumeWithYield)) = 1 :=
  ⟨(final_value_exactly_once (Callable.new (RawGen.mk ([] : List Nat) 3 false)) [5] 3).2.1
      Op.resumeWithYield 3 rfl,
   (final_value_exactly_once (Callable.new (RawGen.mk ([] : List Nat) 3 false)) [5] 3).2.2.2⟩

/-- C8 counterexample: the `Future::poll` boundary operation reports an
exhausted wrapper as the error value `Err(())`, not as an empty/no-value
result — refuting "never as a thrown fault or error value" for the
poll-style boundary operations. -/
theorem exhaustion_reporting_counterexample :
    (Callable.poll (⟨none⟩ : Callable (RawGen Nat Nat))).1 = Except.error () :=
  rfl

/-- C8 (amended): every core operation that could otherwise produce a new
wrapper or a step result reports exhaustion uniformly as an empty/no-value
result, and the `Stream::poll_next` boundary maps exhaustion to
`Ok(Ready(None))`; the exception is the `Future::poll` boundary, which maps
exhaustion to the error value `Err(())`. -/
theorem exhaustion_reporting_uniform [Generator σ Y R] [Generator τ Y R]
    (c : Callable σ) (g : R → τ) (f : σ → τ) (fc : Callable σ → τ)
    (h : c.slot = none) :
    Callable.resume (Y := Y) c = (none, c) ∧
    Callable.resume_with_yield (Y := Y) c = (none, c) ∧
    Callable.chain c g = none ∧
    Callable.move_into c f = none ∧
    Callable.make_new c fc = none ∧
    Callable.borrow_mut c fc = none ∧
    Callable.take c = (none, ⟨none⟩) ∧
    Callable.into_inner c = none ∧
    Callable.as_mut c = none ∧
    Callable.poll_next (Y := Y) c = (Except.ok (Async.Ready none), c) ∧
    Callable.poll (Y := Y) c = (Except.error (), c) := by
  obtain ⟨slot⟩ := c
  cases h
  exact ⟨rfl, rfl, rfl, rfl, rfl, rfl, rfl, rfl, rfl, rfl, rfl⟩

/-- C8 witness: the amended reporting behaviour at a concrete exhausted
wrapper over the host generator type. -/
theorem exhaustion_reporting_uniform_witness :
    Callable.resume (Y := Nat) (⟨none⟩ : Callable (RawGen Nat Nat)) =
      (none, (⟨none⟩ : Callable (RawGen Nat Nat))) ∧
    Callable.resume_with_yield (Y := Nat) (⟨none⟩ : Callable (RawGen Nat Nat)) =
      (none, (⟨none⟩ : Callable (RawGen Nat Nat))) ∧
    Callable.chain (⟨none⟩ : Callable (RawGen Nat Nat)) chainTransform1 = none ∧
    Callable.move_into (⟨none⟩ : Callable (RawGen Nat Nat))
      (id : RawGen Nat Nat → RawGen Nat Nat) = none ∧
    Callable.make_new (⟨none⟩ : Callable (RawGen Nat Nat))
      (fun _ => RawGen.mk ([] : List Nat) 0 false) = none ∧
    Callable.borrow_mut (⟨none⟩ : Callable (RawGen Nat Nat))
      (fun _ => RawGen.mk ([] : List Nat) 0 false) = none ∧
    Callable.take (⟨none⟩ : Callable (RawGen Nat Nat)) =
      (none, (⟨none⟩ : Callable (RawGen Nat Nat))) ∧
    Callable.into_inner (⟨none⟩ : Callable (RawGen Nat Nat)) = none ∧
    Callable.as_mut (⟨none⟩ : Callable (RawGen Nat Nat)) = none ∧
    Callable.poll_next (Y := Nat) (⟨none⟩ : Callable (RawGen Nat Nat)) =
      (Except.ok (Async.Ready none), (⟨none⟩ : Callable (RawGen Nat Nat))) ∧
    Callable.poll (Y := Nat) (⟨none⟩ : Callable (RawGen Nat Nat)) =
      (Except.error (), (⟨none⟩ : Callable (RawGen Nat Nat))) :=
  exhaustion_reporting_uniform (⟨none⟩ : Callable (RawGen Nat Nat)) chainTransform1
    (id : RawGen Nat Nat → RawGen Nat Nat) (fun _ => RawGen.mk ([] : List Nat) 0 false) rfl
